import Mathlib

/-!
Verification of the churchdwight-com-documentation PDF scraper (src/main.py).

The development shallowly embeds the pure string functions of the program
(`url_to_filename`, `get_filename`, `is_url_valid`, `remove_duplicates`,
`extract_pdf_urls`) and models its effectful components (`download_pdf`,
`get_final_url`, `get_data_from_url`, the orchestrator loop of `main`) as
explicit state transitions over oracles for the network and the browser.

The Python standard-library helpers the program calls (`urllib.parse.urlparse`,
`os.path.basename`, `os.path.splitext`, `str.lower`, `re`) are modelled after
CPython's implementations.  `str.lower` is modelled on the ASCII range (the
URLs this program handles are ASCII); `urlparse` models CPython's scheme /
netloc / fragment / query / params splitting, the removal of tab, CR and LF
bytes, and the `ValueError` raised on mismatched square brackets in the
authority (modelled as `none`).
-/

set_option maxRecDepth 8192

namespace Scrape

/-- ASCII uppercase/lowercase pairs; models `str.lower` on the ASCII range. -/
def lowerPairs : List (Char × Char) :=
  [('A', 'a'), ('B', 'b'), ('C', 'c'), ('D', 'd'), ('E', 'e'), ('F', 'f'),
   ('G', 'g'), ('H', 'h'), ('I', 'i'), ('J', 'j'), ('K', 'k'), ('L', 'l'),
   ('M', 'm'), ('N', 'n'), ('O', 'o'), ('P', 'p'), ('Q', 'q'), ('R', 'r'),
   ('S', 's'), ('T', 't'), ('U', 'u'), ('V', 'v'), ('W', 'w'), ('X', 'x'),
   ('Y', 'y'), ('Z', 'z')]

/-- `str.lower`, one character (ASCII). -/
def pyLower (c : Char) : Char :=
  match lowerPairs.find? (fun p => p.1 == c) with
  | some p => p.2
  | none => c

/-- `str.lower` on a whole string (as a character list). -/
def pyLowerL (l : List Char) : List Char := l.map pyLower

/-- Characters CPython's `urlsplit` does NOT delete from the URL
(it removes tab, CR and LF before parsing). -/
def isKeptChar (c : Char) : Bool := !(c == '\t' || c == '\r' || c == '\n')

/-- The tab/CR/LF removal performed by CPython's `urlsplit`. -/
def stripBytes (l : List Char) : List Char := l.filter isKeptChar

/-- CPython `urllib.parse.scheme_chars`. -/
def schemeChars : List Char :=
  "abcdefghijklmnopqrstuvwxyzABCDEFGHIJKLMNOPQRSTUVWXYZ0123456789+-.".data

/-- ASCII letters, for the `url[0].isascii() and url[0].isalpha()` check. -/
def asciiLetters : List Char :=
  "abcdefghijklmnopqrstuvwxyzABCDEFGHIJKLMNOPQRSTUVWXYZ".data

/-- Boolean character membership (`c in s` on strings). -/
def hasChar (l : List Char) (d : Char) : Bool := l.any (fun c => c == d)

def notColon (c : Char) : Bool := c != ':'

/-- The scheme-splitting step of CPython `urlsplit`: if the URL has a `:`
at position `i > 0` and everything before it is a valid scheme (first
character an ASCII letter, the rest in `scheme_chars`), the scheme is
lowercased and split off; otherwise the scheme is empty. -/
def schemeSplit (l : List Char) : List Char × List Char :=
  let pre := l.takeWhile notColon
  if pre.length < l.length && !pre.isEmpty &&
      asciiLetters.contains (pre.headD ' ') && pre.all (fun c => schemeChars.contains c) then
    (pre.map pyLower, (l.dropWhile notColon).tail)
  else
    ([], l)

def notNetlocEnd (c : Char) : Bool := !(c == '/' || c == '?' || c == '#')

/-- The netloc-splitting step of CPython `urlsplit`: if the rest starts with
`//`, the netloc runs up to the next `/`, `?` or `#`; mismatched square
brackets raise `ValueError("Invalid IPv6 URL")`, modelled as `none`. -/
def netlocSplit (l : List Char) : Option (List Char × List Char) :=
  if l.take 2 = ['/', '/'] then
    let rest := l.drop 2
    let n := rest.takeWhile notNetlocEnd
    if (hasChar n '[' && !hasChar n ']') || (hasChar n ']' && !hasChar n '[') then none
    else some (n, rest.dropWhile notNetlocEnd)
  else some ([], l)

def notHash (c : Char) : Bool := c != '#'

def notQm (c : Char) : Bool := c != '?'

/-- Fragment removal: `url.split('#', 1)[0]`. -/
def dropFragment (l : List Char) : List Char := l.takeWhile notHash

/-- Query removal: `url.split('?', 1)[0]`. -/
def dropQuery (l : List Char) : List Char := l.takeWhile notQm

/-- CPython `urllib.parse.uses_params`. -/
def usesParams : List (List Char) :=
  [[], "ftp".data, "hdl".data, "prospero".data, "http".data, "imap".data,
   "https".data, "ftps".data, "rtsp".data, "rtspu".data, "sip".data,
   "sips".data, "mms".data, "sftp".data, "tel".data]

def notSemi (c : Char) : Bool := c != ';'

def notSlash (c : Char) : Bool := c != '/'

/-- CPython `urllib.parse._splitparams`, path component only: drop a `;params`
suffix occurring in the last path segment. -/
def splitparamsPath (p : List Char) : List Char :=
  if hasChar p '/' then
    let lastSeg := (p.reverse.takeWhile notSlash).reverse
    if hasChar lastSeg ';' then
      p.take (p.length - lastSeg.length) ++ lastSeg.takeWhile notSemi
    else p
  else p.takeWhile notSemi

/-- The params handling of CPython `urlparse`: params are split off the path
only when the scheme uses them and the path contains `;`. -/
def pathParams (scheme p : List Char) : List Char :=
  if decide (scheme ∈ usesParams) && hasChar p ';' then splitparamsPath p else p

/-- The components of a parsed URL used by the program:
`result.scheme`, `result.netloc` and `result.path`. -/
structure PyUrl where
  scheme : List Char
  netloc : List Char
  path : List Char
deriving Repr, DecidableEq

/-- Model of CPython `urllib.parse.urlparse` (scheme, netloc and path
components).  `none` models the `ValueError` raised on mismatched square
brackets in the authority. -/
def pyUrlparse (url : List Char) : Option PyUrl :=
  match netlocSplit (schemeSplit (stripBytes url)).2 with
  | none => none
  | some (nl, r2) =>
    some ⟨(schemeSplit (stripBytes url)).1, nl,
      pathParams (schemeSplit (stripBytes url)).1 (dropQuery (dropFragment r2))⟩

/-- `os.path.basename` (posixpath): everything after the last `/`. -/
def basenameL (p : List Char) : List Char := (p.reverse.takeWhile notSlash).reverse

/-- `get_filename` from src/main.py: `os.path.basename(urlparse(url).path)`.
`none` models the `ValueError` that `urlparse` can raise. -/
def get_filename (url : String) : Option String :=
  (pyUrlparse url.data).map (fun u => String.mk (basenameL u.path))

def notDot (c : Char) : Bool := c != '.'

/-- The reversed after-last-dot run of a name, helper for `splitext_ext`. -/
def extRevOf (name : List Char) : List Char := name.reverse.takeWhile notDot

/-- The extension component of `os.path.splitext` (posixpath): the substring
from the last `.` of the basename, provided some earlier character of the
basename is not a `.`. -/
def splitext_ext (l : List Char) : List Char :=
  if (extRevOf (basenameL l)).length = (basenameL l).length then []
  else if ((basenameL l).reverse.drop ((extRevOf (basenameL l)).length + 1)).any notDot then
    '.' :: (extRevOf (basenameL l)).reverse
  else []

/-- The character class `[a-z0-9]` of the sanitizing regex in `url_to_filename`. -/
def isLowerAlnum (c : Char) : Bool := ('a' ≤ c && c ≤ 'z') || ('0' ≤ c && c ≤ '9')

/-- Characters that can appear in the sanitized stem: `[a-z0-9_]`. -/
def isStemChar (c : Char) : Bool := isLowerAlnum c || c == '_'

/-- `re.sub(r"[^a-z0-9]", "_", s)`. -/
def subNonAlnum (l : List Char) : List Char :=
  l.map (fun c => if isLowerAlnum c then c else '_')

/-- `re.sub(r"_+", "_", s)`: collapse runs of underscores to one. -/
def collapseU : List Char → List Char
  | [] => []
  | [c] => [c]
  | c1 :: c2 :: rest =>
    if c1 == '_' && c2 == '_' then collapseU (c2 :: rest)
    else c1 :: collapseU (c2 :: rest)

def isUnderscore (c : Char) : Bool := c == '_'

/-- `s.strip("_")`. -/
def stripUnderscores (l : List Char) : List Char :=
  ((l.dropWhile isUnderscore).reverse.dropWhile isUnderscore).reverse

/-- `s.endswith(pat)`. -/
def endsWithL (pat l : List Char) : Bool := pat.reverse.isPrefixOf l.reverse

/-- The stem of `url_to_filename` before the `_pdf` strip: replace
non-`[a-z0-9]` characters by `_`, collapse underscore runs, strip edge
underscores. -/
def preStem (lower : List Char) : List Char :=
  stripUnderscores (collapseU (subNonAlnum lower))

/-- The sanitized stem computed by `url_to_filename`: `preStem`, then drop a
trailing `_pdf` if present. -/
def sanStem (lower : List Char) : List Char :=
  if endsWithL "_pdf".data (preStem lower) then
    (preStem lower).take ((preStem lower).length - 4)
  else preStem lower

/-- The extension appended by `url_to_filename`: the recorded extension of the
basename, or `.pdf` when none was recorded. -/
def extChoice (lower : List Char) : List Char :=
  if (splitext_ext lower).isEmpty then ".pdf".data else splitext_ext lower

/-- `url_to_filename` from src/main.py.  The URL is lowercased, its path
basename extracted (`get_filename`), sanitized into a stem, and the recorded
(or default `.pdf`) extension appended unless the stem already ends in
`.pdf`.  `none` models the `ValueError` that `urlparse` can raise. -/
def url_to_filename (raw_url : String) : Option String :=
  (pyUrlparse (pyLowerL raw_url.data)).map (fun u =>
    String.mk (if endsWithL ".pdf".data (sanStem (basenameL u.path))
      then sanStem (basenameL u.path)
      else sanStem (basenameL u.path) ++ extChoice (basenameL u.path)))

/-- `is_url_valid` from src/main.py: parse the URL, valid iff both scheme and
netloc are nonempty; a parse error is caught and yields `False`. -/
def is_url_valid (url : String) : Bool :=
  match pyUrlparse url.data with
  | none => false
  | some u => !u.scheme.isEmpty && !u.netloc.isEmpty

/-- Worker for `remove_duplicates`, carrying the set of already-seen keys
(`dict.fromkeys` keeps the first occurrence of each key). -/
def rdGo (seen : List String) : List String → List String
  | [] => []
  | x :: xs => if x ∈ seen then rdGo seen xs else x :: rdGo (x :: seen) xs

/-- `remove_duplicates` from src/main.py: `list(dict.fromkeys(seq))`, i.e.
deduplication preserving first-seen order. -/
def remove_duplicates (l : List String) : List String := rdGo [] l

/-- Python `\s` on the ASCII range. -/
def isPySpace (c : Char) : Bool :=
  c == ' ' || c == '\t' || c == '\n' || c == '\r' || c == '\x0b' || c == '\x0c'

/-- The character class `[^\s'"]` of the PDF-link pattern. -/
def isClassC (c : Char) : Bool := !(isPySpace c || c == '\'' || c == '"')

/-- Python `\d` on the ASCII range. -/
def isAsciiDigit (c : Char) : Bool := '0' ≤ c && c ≤ '9'

/-- The literal middle part of the PDF-link pattern. -/
def pdfLit : List Char := "/pdf/?productID=".data

/-- Matching `https?://` at the head of `l` (greedy `s?`: `https` preferred). -/
def matchScheme (l : List Char) : Option (List Char × List Char) :=
  if ("https://".data).isPrefixOf l then some ("https://".data, l.drop 8)
  else if ("http://".data).isPrefixOf l then some ("http://".data, l.drop 7)
  else none

/-- Backtracking search for `[^\s'"]+/pdf/\?productID=\d+` at the head of `r`:
the greedy `[^\s'"]+` tries length `n+1` first and backtracks downward; on
success `\d+` is maximal.  Returns the matched text and the remaining input. -/
def tryBody (r : List Char) : Nat → Option (List Char × List Char)
  | 0 => none
  | n + 1 =>
    let pre := r.take (n + 1)
    let tl := r.drop (n + 1)
    if pre.length = n + 1 && pre.all isClassC && pdfLit.isPrefixOf tl then
      let afterLit := tl.drop pdfLit.length
      let digits := afterLit.takeWhile isAsciiDigit
      if digits.isEmpty then tryBody r n
      else some (pre ++ pdfLit ++ digits, afterLit.drop digits.length)
    else tryBody r n

/-- One attempt of the whole pattern `https?://[^\s'"]+/pdf/\?productID=\d+`
anchored at the head of `l`. -/
def matchAt (l : List Char) : Option (List Char × List Char) :=
  match matchScheme l with
  | none => none
  | some (sch, r) =>
    match tryBody r r.length with
    | none => none
    | some (body, rest) => some (sch ++ body, rest)

/-- `re.findall` for the PDF-link pattern: scan left to right, emit the
leftmost match, continue after it (non-overlapping).  Every step consumes at
least one character, so `fuel = length + 1` never runs out early. -/
def findallAux : Nat → List Char → List (List Char)
  | 0, _ => []
  | _, [] => []
  | fuel + 1, l@(_ :: tl) =>
    match matchAt l with
    | some (m, rest) => m :: findallAux fuel rest
    | none => findallAux fuel tl

/-- `extract_pdf_urls` from src/main.py: all matches of the PDF-link pattern,
in match order, duplicates included. -/
def extract_pdf_urls (html : String) : List String :=
  (findallAux (html.data.length + 1) html.data).map String.mk

/-- `"needle" in haystack` for Python strings: contiguous-substring test. -/
def isSubListB (n : List Char) : List Char → Bool
  | [] => n.isEmpty
  | h :: t => n.isPrefixOf (h :: t) || isSubListB n t

/-- The `Content-Type` gate of `download_pdf`:
`"application/pdf" in content_type or "text/html" in content_type`. -/
def acceptableContentType (ct : String) : Bool :=
  isSubListB "application/pdf".data ct.data || isSubListB "text/html".data ct.data

/-- Oracle for one `requests.get(final_url, ...)` call in `download_pdf`:
either the call raises (network error), or it returns a response with a
success flag (`raise_for_status` raises when false), a `Content-Type`
header, and a flag saying whether streaming the body raises midway. -/
inductive HttpResult where
  | netErr : HttpResult
  | resp (statusOk : Bool) (contentType : String) (streamErr : Bool) : HttpResult
deriving Repr, DecidableEq

/-- Observable outcome of one `download_pdf` call: the files present in the
filesystem afterwards (as full paths), the returned boolean, whether a
network GET was issued, and whether the "already exists, skipping" report
was emitted. -/
structure DLRun where
  files : List String
  ret : Bool
  requested : Bool
  skipped : Bool
deriving Repr, DecidableEq

/-- `download_pdf` from src/main.py as a filesystem transition.  `files` is
the set of file paths existing before the call.  `url_to_filename` and the
existence check run before the `try`, so a `ValueError` from `urlparse`
escapes (`none`).  If the file exists the call skips with no GET.  Otherwise
a GET is issued; on a raised error or non-success status nothing is written;
on an unacceptable `Content-Type` nothing is written; otherwise the file is
created (it stays on disk even if streaming fails midway, with `False`
returned). -/
def download_pdf (http : String → HttpResult) (final_url output_dir : String)
    (files : List String) : Option DLRun :=
  match url_to_filename final_url with
  | none => none
  | some filename =>
    let filepath := output_dir ++ "/" ++ filename
    if filepath ∈ files then some ⟨files, false, false, true⟩
    else
      match http final_url with
      | .netErr => some ⟨files, false, true, false⟩
      | .resp false _ _ => some ⟨files, false, true, false⟩
      | .resp true ct se =>
        if acceptableContentType ct then some ⟨filepath :: files, !se, true, false⟩
        else some ⟨files, false, true, false⟩

/-- Oracle for one browser navigation inside `get_final_url`: the navigation
either settles on a final URL or raises (navigation error / timeout). -/
inductive NavResult where
  | ok (finalUrl : String) : NavResult
  | err : NavResult
deriving Repr, DecidableEq

/-- Oracle for one `get_final_url` call.  Two pre-navigation calls run
outside the `try/finally`: `webdriver.Chrome(...)` may raise before any
session exists (`startFail`), and `driver.set_page_load_timeout(60)`
(main.py:95) may raise after the session has started (`configFail`);
otherwise the navigation runs with some `NavResult`. -/
inductive BrowserRun where
  | startFail : BrowserRun
  | configFail : BrowserRun
  | nav (r : NavResult) : BrowserRun
deriving Repr, DecidableEq

/-- Observable outcome of one `get_final_url` call: the returned string (or
a propagated exception, `Except.error`), and how many browser sessions were
started and torn down during the call. -/
structure GFUTrace where
  outcome : Except Unit String
  sessionsStarted : Nat
  sessionsQuit : Nat
deriving Repr

/-- `get_final_url` from src/main.py.  If `webdriver.Chrome` raises, no
session was started and the exception propagates.  If
`driver.set_page_load_timeout` raises — it runs after the session starts but
BEFORE the `try`, so no `finally` covers it — the started session is never
quit (it leaks) and the exception propagates.  Only then does the navigation
run inside `try/except/finally`: a navigation error is caught and the empty
string returned, and the `finally` block quits the session on every path of
the `try`. -/
def get_final_url (browser : String → BrowserRun) (input_url : String) : GFUTrace :=
  match browser input_url with
  | .startFail => ⟨.error (), 0, 0⟩
  | .configFail => ⟨.error (), 1, 0⟩
  | .nav (.ok u) => ⟨.ok u, 1, 1⟩
  | .nav .err => ⟨.ok "", 1, 1⟩

/-- `get_data_from_url` from src/main.py: a GET whose every exception is
caught, returning the body text on success and `""` on any error (`none`
models a raised exception). -/
def get_data_from_url (http_text : String → Option String) (uri : String) : String :=
  (http_text uri).getD ""

/-- Phase A of `main`: fetch every seed page in order, accumulating bodies. -/
def phaseA (http_text : String → Option String) (urls : List String) : List String :=
  urls.map (get_data_from_url http_text)

/-- One iteration of the download loop of `main`: resolve the link (a raised
exception propagates), validate, and download if valid.  Returns the files
on disk afterwards, or `Except.error` if an exception escaped. -/
def processOne (browser : String → BrowserRun) (http : String → HttpResult)
    (output_dir : String) (files : List String) (link : String) :
    Except Unit (List String) :=
  match (get_final_url browser link).outcome with
  | .error e => .error e
  | .ok resolved =>
    if is_url_valid resolved then
      match download_pdf http resolved output_dir files with
      | none => .error ()
      | some r => .ok r.files
    else .ok files

/-- Phase C of `main`: the download loop over the deduplicated link list;
an exception escaping one iteration aborts the remaining iterations. -/
def phaseC (browser : String → BrowserRun) (http : String → HttpResult)
    (output_dir : String) (files : List String) :
    List String → Except Unit (List String)
  | [] => .ok files
  | link :: rest =>
    match processOne browser http output_dir files link with
    | .error e => .error e
    | .ok files2 => phaseC browser http output_dir files2 rest

/-! ### Lemmas: lowercasing commutes with URL parsing -/

theorem pyLower_pres (P : Char → Bool) (hP : ∀ p ∈ lowerPairs, P p.2 = P p.1)
    (c : Char) : P (pyLower c) = P c := by
  unfold pyLower
  cases h : lowerPairs.find? (fun p => p.1 == c) with
  | none => rfl
  | some p =>
    have hm := List.mem_of_find?_eq_some h
    have hc : p.1 = c := by simpa using List.find?_some h
    rw [← hc]
    exact hP p hm

theorem pyLower_idem (c : Char) : pyLower (pyLower c) = pyLower c := by
  cases h : lowerPairs.find? (fun p => p.1 == c) with
  | none =>
    have h1 : pyLower c = c := by simp [pyLower, h]
    rw [h1, h1]
  | some p =>
    have hm := List.mem_of_find?_eq_some h
    have h1 : pyLower c = p.2 := by simp [pyLower, h]
    have h2 : ∀ q ∈ lowerPairs, lowerPairs.find? (fun r => r.1 == q.2) = none := by decide
    rw [h1]
    simp [pyLower, h2 p hm]

theorem pyLower_eq_iff (d : Char) (hd : ∀ p ∈ lowerPairs, (p.2 == d) = (p.1 == d))
    (c : Char) : pyLower c = d ↔ c = d := by
  have := pyLower_pres (fun c => c == d) hd c
  simpa using this

theorem takeWhile_map_pres (g : Char → Char) (p : Char → Bool)
    (h : ∀ c, p (g c) = p c) (l : List Char) :
    (l.map g).takeWhile p = (l.takeWhile p).map g := by
  induction l with
  | nil => rfl
  | cons c t ih =>
    simp only [List.map_cons, List.takeWhile_cons, h c]
    cases hp : p c <;> simp [hp, ih]

theorem dropWhile_map_pres (g : Char → Char) (p : Char → Bool)
    (h : ∀ c, p (g c) = p c) (l : List Char) :
    (l.map g).dropWhile p = (l.dropWhile p).map g := by
  induction l with
  | nil => rfl
  | cons c t ih =>
    simp only [List.map_cons, List.dropWhile_cons, h c]
    cases hp : p c <;> simp [hp, ih]

theorem filter_map_pres (g : Char → Char) (p : Char → Bool)
    (h : ∀ c, p (g c) = p c) (l : List Char) :
    (l.map g).filter p = (l.filter p).map g := by
  induction l with
  | nil => rfl
  | cons c t ih =>
    simp only [List.map_cons, List.filter_cons, h c]
    cases hp : p c <;> simp [hp, ih]

theorem any_map_pres (g : Char → Char) (p : Char → Bool)
    (h : ∀ c, p (g c) = p c) (l : List Char) :
    (l.map g).any p = l.any p := by
  induction l with
  | nil => rfl
  | cons c t ih => simp [List.any_cons, h c, ih]

theorem all_map_pres (g : Char → Char) (p : Char → Bool)
    (h : ∀ c, p (g c) = p c) (l : List Char) :
    (l.map g).all p = l.all p := by
  induction l with
  | nil => rfl
  | cons c t ih => simp [List.all_cons, h c, ih]

theorem tail_map (g : Char → Char) (l : List Char) : (l.map g).tail = l.tail.map g := by
  cases l <;> simp

theorem hasChar_map_pres (g : Char → Char) (d : Char)
    (h : ∀ c, ((g c) == d) = (c == d)) (l : List Char) :
    hasChar (l.map g) d = hasChar l d :=
  any_map_pres g (fun c => c == d) h l

theorem isEmpty_map (g : Char → Char) (l : List Char) :
    (l.map g).isEmpty = l.isEmpty := by
  cases l <;> rfl

theorem pyLower_notColon (c : Char) : notColon (pyLower c) = notColon c :=
  pyLower_pres notColon (by decide) c

theorem pyLower_notNetlocEnd (c : Char) : notNetlocEnd (pyLower c) = notNetlocEnd c :=
  pyLower_pres notNetlocEnd (by decide) c

theorem pyLower_notHash (c : Char) : notHash (pyLower c) = notHash c :=
  pyLower_pres notHash (by decide) c

theorem pyLower_notQm (c : Char) : notQm (pyLower c) = notQm c :=
  pyLower_pres notQm (by decide) c

theorem pyLower_notSemi (c : Char) : notSemi (pyLower c) = notSemi c :=
  pyLower_pres notSemi (by decide) c

theorem pyLower_notSlash (c : Char) : notSlash (pyLower c) = notSlash c :=
  pyLower_pres notSlash (by decide) c

theorem pyLower_isKeptChar (c : Char) : isKeptChar (pyLower c) = isKeptChar c :=
  pyLower_pres isKeptChar (by decide) c

theorem pyLower_beq_lbracket (c : Char) : (pyLower c == '[') = (c == '[') :=
  pyLower_pres (fun c => c == '[') (by decide) c

theorem pyLower_beq_rbracket (c : Char) : (pyLower c == ']') = (c == ']') :=
  pyLower_pres (fun c => c == ']') (by decide) c

theorem pyLower_beq_semi (c : Char) : (pyLower c == ';') = (c == ';') :=
  pyLower_pres (fun c => c == ';') (by decide) c

theorem pyLower_beq_slash (c : Char) : (pyLower c == '/') = (c == '/') :=
  pyLower_pres (fun c => c == '/') (by decide) c

theorem pyLower_schemeChars (c : Char) :
    schemeChars.contains (pyLower c) = schemeChars.contains c :=
  pyLower_pres (fun c => schemeChars.contains c) (by decide) c

theorem pyLower_asciiLetters (c : Char) :
    asciiLetters.contains (pyLower c) = asciiLetters.contains c :=
  pyLower_pres (fun c => asciiLetters.contains c) (by decide) c

theorem map_pyLower_idem (l : List Char) :
    (l.map pyLower).map pyLower = l.map pyLower := by
  rw [List.map_map]
  exact List.map_congr_left (fun c _ => pyLower_idem c)

theorem stripBytes_map (l : List Char) :
    stripBytes (l.map pyLower) = (stripBytes l).map pyLower :=
  filter_map_pres pyLower isKeptChar pyLower_isKeptChar l

theorem headD_map_asciiLetters (l : List Char) :
    asciiLetters.contains ((l.map pyLower).headD ' ') =
      asciiLetters.contains (l.headD ' ') := by
  cases l with
  | nil => rfl
  | cons c t => simpa using pyLower_asciiLetters c

theorem schemeSplit_map (l : List Char) :
    schemeSplit (l.map pyLower) = ((schemeSplit l).1, (schemeSplit l).2.map pyLower) := by
  unfold schemeSplit
  simp only [takeWhile_map_pres pyLower notColon pyLower_notColon,
    dropWhile_map_pres pyLower notColon pyLower_notColon, tail_map,
    List.length_map, isEmpty_map, headD_map_asciiLetters,
    all_map_pres pyLower (fun c => schemeChars.contains c) pyLower_schemeChars,
    map_pyLower_idem]
  split <;> simp

theorem take_two_map_slashes (l : List Char) :
    ((l.map pyLower).take 2 = ['/', '/']) ↔ (l.take 2 = ['/', '/']) := by
  have hs : ∀ c, pyLower c = '/' ↔ c = '/' := by
    intro c
    have := pyLower_beq_slash c
    simpa using this
  cases l with
  | nil => simp
  | cons a t =>
    cases t with
    | nil => simp
    | cons b u => simp [hs a, hs b]

theorem netlocSplit_map (l : List Char) :
    netlocSplit (l.map pyLower) =
      (netlocSplit l).map (fun nr => (nr.1.map pyLower, nr.2.map pyLower)) := by
  unfold netlocSplit
  by_cases h2 : l.take 2 = ['/', '/']
  · have h2m : (l.map pyLower).take 2 = ['/', '/'] := (take_two_map_slashes l).mpr h2
    simp only [h2, h2m, if_true, ← List.map_drop,
      takeWhile_map_pres pyLower notNetlocEnd pyLower_notNetlocEnd,
      dropWhile_map_pres pyLower notNetlocEnd pyLower_notNetlocEnd,
      hasChar_map_pres pyLower '[' pyLower_beq_lbracket,
      hasChar_map_pres pyLower ']' pyLower_beq_rbracket]
    split <;> simp
  · have h2m : ¬((l.map pyLower).take 2 = ['/', '/']) :=
      fun h => h2 ((take_two_map_slashes l).mp h)
    simp [h2, h2m]

theorem dropFragment_map (l : List Char) :
    dropFragment (l.map pyLower) = (dropFragment l).map pyLower :=
  takeWhile_map_pres pyLower notHash pyLower_notHash l

theorem dropQuery_map (l : List Char) :
    dropQuery (l.map pyLower) = (dropQuery l).map pyLower :=
  takeWhile_map_pres pyLower notQm pyLower_notQm l

theorem splitparamsPath_map (p : List Char) :
    splitparamsPath (p.map pyLower) = (splitparamsPath p).map pyLower := by
  unfold splitparamsPath
  simp only [hasChar_map_pres pyLower '/' pyLower_beq_slash, ← List.map_reverse,
    takeWhile_map_pres pyLower notSlash pyLower_notSlash,
    takeWhile_map_pres pyLower notSemi pyLower_notSemi,
    hasChar_map_pres pyLower ';' pyLower_beq_semi, List.length_map,
    ← List.map_take, ← List.map_append]
  split <;> (try split) <;> simp [← List.map_reverse,
    takeWhile_map_pres pyLower notSemi pyLower_notSemi]

theorem pathParams_map (scheme p : List Char) :
    pathParams scheme (p.map pyLower) = (pathParams scheme p).map pyLower := by
  unfold pathParams
  simp only [hasChar_map_pres pyLower ';' pyLower_beq_semi]
  split
  · exact splitparamsPath_map p
  · rfl

theorem basenameL_map (p : List Char) :
    basenameL (p.map pyLower) = (basenameL p).map pyLower := by
  unfold basenameL
  rw [← List.map_reverse, takeWhile_map_pres pyLower notSlash pyLower_notSlash,
    ← List.map_reverse]

theorem pyUrlparse_map (url : List Char) :
    pyUrlparse (url.map pyLower) =
      (pyUrlparse url).map (fun u => ⟨u.scheme, u.netloc.map pyLower, u.path.map pyLower⟩) := by
  unfold pyUrlparse
  rw [stripBytes_map, schemeSplit_map, netlocSplit_map]
  cases netlocSplit (schemeSplit (stripBytes url)).2 with
  | none => rfl
  | some nr =>
    show some _ = some _
    rw [dropFragment_map, dropQuery_map, pathParams_map]

/-! ### Lemmas: the sanitized stem and the appended extension -/

theorem mem_of_isPrefixOf {n h : List Char} (hp : n.isPrefixOf h = true) :
    ∀ x ∈ n, x ∈ h := by
  induction n generalizing h with
  | nil => intro x hx; simp at hx
  | cons a t ih =>
    cases h with
    | nil => simp [List.isPrefixOf] at hp
    | cons b u =>
      simp only [List.isPrefixOf, Bool.and_eq_true, beq_iff_eq] at hp
      intro x hx
      rcases List.mem_cons.mp hx with rfl | hx
      · cases hp.1; exact List.mem_cons_self _ _
      · exact List.mem_cons_of_mem _ (ih hp.2 x hx)

theorem subNonAlnum_stem (l : List Char) : ∀ c ∈ subNonAlnum l, isStemChar c = true := by
  intro c hc
  rcases List.mem_map.mp hc with ⟨a, _, rfl⟩
  by_cases h : isLowerAlnum a = true <;> simp [isStemChar, h]

theorem mem_collapseU : ∀ {l : List Char} {c : Char}, c ∈ collapseU l → c ∈ l := by
  intro l
  induction l with
  | nil => intro c hc; simp [collapseU] at hc
  | cons c1 t ih =>
    cases t with
    | nil => intro c hc; simpa [collapseU] using hc
    | cons c2 t2 =>
      intro c hc
      unfold collapseU at hc
      split at hc
      · exact List.mem_cons_of_mem _ (ih hc)
      · rcases List.mem_cons.mp hc with rfl | hc
        · exact List.mem_cons_self _ _
        · exact List.mem_cons_of_mem _ (ih hc)

theorem mem_stripUnderscores {l : List Char} {c : Char}
    (hc : c ∈ stripUnderscores l) : c ∈ l := by
  unfold stripUnderscores at hc
  rw [List.mem_reverse] at hc
  have h1 := (List.dropWhile_sublist (l := (l.dropWhile isUnderscore).reverse)
    (p := isUnderscore)).subset hc
  rw [List.mem_reverse] at h1
  exact (List.dropWhile_sublist (l := l) (p := isUnderscore)).subset h1

theorem sanStem_stem (lower : List Char) : ∀ c ∈ sanStem lower, isStemChar c = true := by
  intro c hc
  unfold sanStem at hc
  have hs : c ∈ preStem lower := by
    split at hc
    · exact List.take_subset _ _ hc
    · exact hc
  unfold preStem at hs
  exact subNonAlnum_stem lower c (mem_collapseU (mem_stripUnderscores hs))

theorem endsWith_pdf_false {l : List Char}
    (h : ∀ c ∈ l, isStemChar c = true) : endsWithL ".pdf".data l = false := by
  cases hb : endsWithL ".pdf".data l with
  | false => rfl
  | true =>
    exfalso
    unfold endsWithL at hb
    have hdot : '.' ∈ l.reverse :=
      mem_of_isPrefixOf hb '.' (by decide)
    have := h '.' (List.mem_reverse.mp hdot)
    simp [isStemChar, isLowerAlnum] at this

theorem splitext_ext_shape (l : List Char) :
    splitext_ext l = [] ∨ ∃ t, splitext_ext l = '.' :: t := by
  unfold splitext_ext
  split
  · exact Or.inl rfl
  · split
    · exact Or.inr ⟨_, rfl⟩
    · exact Or.inl rfl

theorem extChoice_shape (lower : List Char) : ∃ t, extChoice lower = '.' :: t := by
  unfold extChoice
  rcases splitext_ext_shape lower with h | ⟨t, h⟩ <;> rw [h]
  · exact ⟨['p', 'd', 'f'], rfl⟩
  · exact ⟨t, rfl⟩

theorem url_to_filename_decomp (url : String) (u : PyUrl)
    (h : pyUrlparse (pyLowerL url.data) = some u) :
    url_to_filename url =
      some (String.mk (sanStem (basenameL u.path) ++ extChoice (basenameL u.path))) := by
  unfold url_to_filename
  rw [h]
  simp [endsWith_pdf_false (sanStem_stem (basenameL u.path))]

/-! ### Claims C3, C7, C9, C10 -/

/-- C3, counterexample: the spec's invariant `^[a-z0-9_]+\.(ext)$` demands a
NONEMPTY stem before the dot, but `url_to_filename` maps
`"https://example.com/"` (empty path basename) to `".pdf"`, whose stem is
empty: no decomposition into a nonempty all-`[a-z0-9_]` stem, a dot and an
extension exists. -/
theorem claim_C3_counterexample :
    url_to_filename "https://example.com/" = some ".pdf" ∧
    ¬ ∃ stem ex : List Char,
        (".pdf" : String).data = stem ++ '.' :: ex ∧ stem ≠ [] ∧
        stem.all isStemChar = true := by
  refine ⟨rfl, ?_⟩
  rintro ⟨stem, ex, heq, hne, hall⟩
  cases stem with
  | nil => exact hne rfl
  | cons c r =>
    have hc : c = '.' := (List.cons.injEq _ _ _ _ ▸ heq :
      '.' = c ∧ _).1.symm
    rw [List.all_cons, Bool.and_eq_true] at hall
    rw [hc] at hall
    simp [isStemChar, isLowerAlnum] at hall

/-- C3, amended: for every URL on which `url_to_filename` returns, the result
decomposes as a (possibly EMPTY) stem of `[a-z0-9_]` characters, a dot, and
an extension; the spec's regex-form invariant holds except that the stem may
be empty (worst case `".pdf"`). -/
theorem claim_C3_amended (url : String) (s : String)
    (h : url_to_filename url = some s) :
    ∃ stem ex : List Char,
      s.data = stem ++ '.' :: ex ∧ stem.all isStemChar = true := by
  cases hp : pyUrlparse (pyLowerL url.data) with
  | none =>
    unfold url_to_filename at h
    rw [hp] at h
    exact absurd h (by simp)
  | some u =>
    have hd := url_to_filename_decomp url u hp
    rw [hd] at h
    obtain ⟨t, ht⟩ := extChoice_shape (basenameL u.path)
    refine ⟨sanStem (basenameL u.path), t, ?_, ?_⟩
    · have : s = String.mk (sanStem (basenameL u.path) ++ extChoice (basenameL u.path)) :=
        (Option.some.injEq _ _ ▸ h).symm
      rw [this, ht]
    · exact List.all_eq_true.mpr (sanStem_stem (basenameL u.path))

/-- Witness for C3 (amended), at the concrete URL `http://h/x.aspx`. -/
theorem claim_C3_witness :
    ∃ stem ex : List Char,
      ("x_aspx.aspx" : String).data = stem ++ '.' :: ex ∧
      stem.all isStemChar = true :=
  claim_C3_amended "http://h/x.aspx" "x_aspx.aspx" (by rfl)

/-- C7, counterexample: `url_to_filename` is claimed never to fail, but on
`"http://[a"` the underlying `urlparse` raises `ValueError("Invalid IPv6
URL")` (mismatched bracket in the authority), which `url_to_filename` does
not catch; the model returns `none` for the propagated exception. -/
theorem claim_C7_counterexample :
    url_to_filename "http://[a" = none := by rfl

/-- C7, amended: whenever URL parsing succeeds (no mismatched square bracket
in the authority), `url_to_filename` returns a string; any URL whose
lowercased path has an empty basename — in particular the
`.../pdf/?productID=<digits>` links, whose path ends in `/pdf/` — yields
exactly `".pdf"`; a URL with no path segments also yields `".pdf"`. -/
theorem claim_C7_amended :
    (∀ url : String, ∀ u : PyUrl, pyUrlparse (pyLowerL url.data) = some u →
      ∃ s, url_to_filename url = some s) ∧
    (∀ url : String, ∀ u : PyUrl, pyUrlparse (pyLowerL url.data) = some u →
      basenameL u.path = [] → url_to_filename url = some ".pdf") ∧
    url_to_filename
      "https://churchdwight.com/ingredient-disclosure/antiperspirant-deodorant/pdf/?productID=40002569"
      = some ".pdf" ∧
    url_to_filename "https://example.com" = some ".pdf" := by
  refine ⟨?_, ?_, by rfl, by rfl⟩
  · intro url u h
    exact ⟨_, url_to_filename_decomp url u h⟩
  · intro url u h hb
    rw [url_to_filename_decomp url u h, hb]
    rfl

/-- Witness for C7 (amended), at the concrete URL `http://q.net/dir/`. -/
theorem claim_C7_witness :
    url_to_filename "http://q.net/dir/" = some ".pdf" :=
  claim_C7_amended.2.1 "http://q.net/dir/"
    ⟨"http".data, "q.net".data, "/dir/".data⟩ (by rfl) (by rfl)

/-- C9: `url_to_filename` depends only on the parsed path's final (basename)
segment — scheme, host, query and fragment are discarded — so two URLs whose
parsed paths share the same basename sanitize identically; in particular two
`.../pdf/?productID=<digits>` links with different digits both sanitize to
`".pdf"`, and after the first is downloaded the second is skipped by
`download_pdf`'s existence check. -/
theorem claim_C9 :
    (∀ u1 u2 : String,
      (pyUrlparse u1.data).map (fun u => basenameL u.path) =
        (pyUrlparse u2.data).map (fun u => basenameL u.path) →
      url_to_filename u1 = url_to_filename u2) ∧
    url_to_filename "https://a.com/x/pdf/?productID=1" = some ".pdf" ∧
    url_to_filename "https://b.org/y/pdf/?productID=234" = some ".pdf" ∧
    download_pdf (fun _ => .resp true "application/pdf" false)
      "https://a.com/x/pdf/?productID=1" "PDFs" []
      = some ⟨["PDFs/.pdf"], true, true, false⟩ ∧
    download_pdf (fun _ => .resp true "application/pdf" false)
      "https://b.org/y/pdf/?productID=234" "PDFs" ["PDFs/.pdf"]
      = some ⟨["PDFs/.pdf"], false, false, true⟩ := by
  refine ⟨?_, by rfl, by rfl, by rfl, by rfl⟩
  intro u1 u2 h
  unfold url_to_filename pyLowerL
  rw [pyUrlparse_map, pyUrlparse_map]
  cases h1 : pyUrlparse u1.data with
  | none =>
    cases h2 : pyUrlparse u2.data with
    | none => rfl
    | some b => rw [h1, h2] at h; exact absurd h (by simp)
  | some a =>
    cases h2 : pyUrlparse u2.data with
    | none => rw [h1, h2] at h; exact absurd h (by simp)
    | some b =>
      rw [h1, h2] at h
      have hpath : basenameL a.path = basenameL b.path := by simpa using h
      simp only [Option.map_some']
      rw [basenameL_map, basenameL_map, hpath]

/-- Witness for C9, at two concrete URLs sharing the basename `z.pdf`. -/
theorem claim_C9_witness :
    url_to_filename "http://a/z.pdf" = url_to_filename "https://b/z.pdf?q=1" :=
  claim_C9.1 "http://a/z.pdf" "https://b/z.pdf?q=1" (by rfl)

/-- C10: the sanitized stem never contains a dot (every character outside
`[a-z0-9]` was replaced by `_`), so the guard "stem does not already end in
`.pdf`" always passes and the recorded (or default `.pdf`) extension is
appended in every case; a basename `x.aspx` therefore yields
`x_aspx.aspx`, its extension both underscore-encoded in the stem and
appended as the suffix. -/
theorem claim_C10 :
    (∀ url : String, ∀ u : PyUrl, pyUrlparse (pyLowerL url.data) = some u →
      ('.' ∉ sanStem (basenameL u.path)) ∧
      endsWithL ".pdf".data (sanStem (basenameL u.path)) = false ∧
      url_to_filename url =
        some (String.mk (sanStem (basenameL u.path) ++ extChoice (basenameL u.path)))) ∧
    url_to_filename "http://h/x.aspx" = some "x_aspx.aspx" := by
  refine ⟨?_, by rfl⟩
  intro url u h
  refine ⟨?_, endsWith_pdf_false (sanStem_stem (basenameL u.path)),
    url_to_filename_decomp url u h⟩
  intro hdot
  have := sanStem_stem (basenameL u.path) '.' hdot
  simp [isStemChar, isLowerAlnum] at this

/-- Witness for C10, at the concrete URL `http://h/x.aspx`. -/
theorem claim_C10_witness :
    url_to_filename "http://h/x.aspx" =
      some (String.mk (sanStem "x.aspx".data ++ extChoice "x.aspx".data)) :=
  (claim_C10.1 "http://h/x.aspx" ⟨"http".data, "h".data, "/x.aspx".data⟩ (by rfl)).2.2

/-! ### Lemmas and claims for the downloader (C1, C4) -/

theorem download_pdf_skip (http : String → HttpResult) (url output_dir : String)
    (fs : List String) (fn : String) (h : url_to_filename url = some fn)
    (hm : (output_dir ++ "/" ++ fn) ∈ fs) :
    download_pdf http url output_dir fs = some ⟨fs, false, false, true⟩ := by
  unfold download_pdf
  rw [h]
  simp [hm]

theorem download_pdf_files_shape (http : String → HttpResult) (url output_dir : String)
    (fs : List String) (fn : String) (h : url_to_filename url = some fn)
    (r : DLRun) (hr : download_pdf http url output_dir fs = some r) :
    r.files = fs ∨
      ((output_dir ++ "/" ++ fn) ∉ fs ∧ r.files = (output_dir ++ "/" ++ fn) :: fs) := by
  unfold download_pdf at hr
  rw [h] at hr
  by_cases hm : (output_dir ++ "/" ++ fn) ∈ fs
  · simp only [hm, if_true] at hr
    cases Option.some.injEq .. ▸ hr
    exact Or.inl rfl
  · simp only [hm, if_false] at hr
    cases hhttp : http url with
    | netErr =>
      rw [hhttp] at hr
      cases Option.some.injEq .. ▸ hr
      exact Or.inl rfl
    | resp ok ct se =>
      rw [hhttp] at hr
      cases ok with
      | false =>
        cases Option.some.injEq .. ▸ hr
        exact Or.inl rfl
      | true =>
        by_cases hct : acceptableContentType ct = true
        · simp only [hct, if_true] at hr
          cases Option.some.injEq .. ▸ hr
          exact Or.inr ⟨hm, rfl⟩
        · simp only [eq_false_of_ne_true hct, if_false] at hr
          cases Option.some.injEq .. ▸ hr
          exact Or.inl rfl

/-- C1: downloader idempotence.  If the file named by the sanitized filename
already exists in the output directory, `download_pdf` skips: it returns
`False`, reports the skip, issues no GET, and leaves the filesystem
unchanged.  Consequently two consecutive runs against the same resolved URL
and output directory write the file at most once, and once the file is
present (in particular whenever the first run wrote it) the second run
reports a skip with no network request. -/
theorem claim_C1 (http : String → HttpResult) (url output_dir : String)
    (fs : List String) (fn : String) (h : url_to_filename url = some fn) :
    ((output_dir ++ "/" ++ fn) ∈ fs →
      download_pdf http url output_dir fs = some ⟨fs, false, false, true⟩) ∧
    (∀ r1 r2 : DLRun, download_pdf http url output_dir fs = some r1 →
      download_pdf http url output_dir r1.files = some r2 →
      ((output_dir ++ "/" ++ fn) ∈ r1.files →
        r2 = ⟨r1.files, false, false, true⟩) ∧
      ((output_dir ++ "/" ++ fn) ∉ fs →
        r2.files.count (output_dir ++ "/" ++ fn) ≤ 1)) := by
  constructor
  · intro hm
    exact download_pdf_skip http url output_dir fs fn h hm
  · intro r1 r2 h1 h2
    constructor
    · intro hm1
      have := download_pdf_skip http url output_dir r1.files fn h hm1
      rw [this] at h2
      exact (Option.some.injEq .. ▸ h2).symm
    · intro hm0
      have hz : fs.count (output_dir ++ "/" ++ fn) = 0 :=
        List.count_eq_zero.mpr hm0
      rcases download_pdf_files_shape http url output_dir fs fn h r1 h1 with hf1 | ⟨_, hf1⟩
      · rcases download_pdf_files_shape http url output_dir r1.files fn h r2 h2
          with hf2 | ⟨_, hf2⟩
        · rw [hf2, hf1, hz]; exact Nat.zero_le 1
        · rw [hf2, hf1, List.count_cons_self, hz]
      · have hm1 : (output_dir ++ "/" ++ fn) ∈ r1.files := by
          rw [hf1]; exact List.mem_cons_self _ _
        have := download_pdf_skip http url output_dir r1.files fn h hm1
        rw [this] at h2
        have hr2 : r2 = ⟨r1.files, false, false, true⟩ :=
          (Option.some.injEq .. ▸ h2).symm
        rw [hr2]
        show r1.files.count _ ≤ 1
        rw [hf1, List.count_cons_self, hz]

/-- Witness for C1: with the file already on disk, the call skips. -/
theorem claim_C1_witness :
    download_pdf (fun _ => .resp true "application/pdf" false)
      "http://a/z.pdf" "PDFs" ["PDFs/z.pdf"]
      = some ⟨["PDFs/z.pdf"], false, false, true⟩ :=
  (claim_C1 (fun _ => .resp true "application/pdf" false)
    "http://a/z.pdf" "PDFs" ["PDFs/z.pdf"] "z.pdf" (by rfl)).1 (by simp)

/-- C4: download gating.  With the file not yet present: a GET that raises
gives no file and `False`; a non-success status gives no file and `False`;
a success with a `Content-Type` containing neither `application/pdf` nor
`text/html` (e.g. `image/png`) gives no file and `False`; and the
filesystem changes only when the response was a success with an acceptable
`Content-Type`. -/
theorem claim_C4 (http : String → HttpResult) (url output_dir : String)
    (fs : List String) (fn : String) (h : url_to_filename url = some fn)
    (hm : (output_dir ++ "/" ++ fn) ∉ fs) :
    (http url = .netErr →
      download_pdf http url output_dir fs = some ⟨fs, false, true, false⟩) ∧
    (∀ ct se, http url = .resp false ct se →
      download_pdf http url output_dir fs = some ⟨fs, false, true, false⟩) ∧
    (∀ ct se, http url = .resp true ct se → acceptableContentType ct = false →
      download_pdf http url output_dir fs = some ⟨fs, false, true, false⟩) ∧
    (∀ r : DLRun, download_pdf http url output_dir fs = some r → r.files ≠ fs →
      ∃ ct se, http url = .resp true ct se ∧ acceptableContentType ct = true) ∧
    acceptableContentType "image/png" = false := by
  refine ⟨?_, ?_, ?_, ?_, by rfl⟩
  · intro hh
    unfold download_pdf
    rw [h]
    simp [hm, hh]
  · intro ct se hh
    unfold download_pdf
    rw [h]
    simp [hm, hh]
  · intro ct se hh hct
    unfold download_pdf
    rw [h]
    simp [hm, hh, hct]
  · intro r hr hne
    unfold download_pdf at hr
    rw [h] at hr
    simp only [hm, if_false] at hr
    cases hhttp : http url with
    | netErr =>
      rw [hhttp] at hr
      cases Option.some.injEq .. ▸ hr
      exact absurd rfl hne
    | resp ok ct se =>
      rw [hhttp] at hr
      cases ok with
      | false =>
        cases Option.some.injEq .. ▸ hr
        exact absurd rfl hne
      | true =>
        by_cases hct : acceptableContentType ct = true
        · exact ⟨ct, se, rfl, hct⟩
        · simp only [eq_false_of_ne_true hct, if_false] at hr
          cases Option.some.injEq .. ▸ hr
          exact absurd rfl hne

/-- Witness for C4: a success response with `Content-Type: image/png` writes
nothing and returns `False`. -/
theorem claim_C4_witness :
    download_pdf (fun _ => .resp true "image/png" false)
      "http://a/z.pdf" "PDFs" []
      = some ⟨[], false, true, false⟩ :=
  (claim_C4 (fun _ => .resp true "image/png" false)
    "http://a/z.pdf" "PDFs" [] "z.pdf" (by rfl) (by simp)).2.2.1
    "image/png" false (by rfl) (by rfl)

/-! ### Claim C5: redirect-resolver teardown -/

/-- C5, counterexample: teardown is NOT guaranteed on every exit path of
`get_final_url`.  On the exit path where `driver.set_page_load_timeout`
raises — after `webdriver.Chrome` has started the session, but outside the
`try/finally` — one session is started, none is quit, and the exception
propagates: a leaked session. -/
theorem claim_C5_counterexample :
    (get_final_url (fun _ => .configFail) "http://a/x").sessionsStarted = 1 ∧
    (get_final_url (fun _ => .configFail) "http://a/x").sessionsQuit = 0 ∧
    (get_final_url (fun _ => .configFail) "http://a/x").sessionsQuit ≠
      (get_final_url (fun _ => .configFail) "http://a/x").sessionsStarted ∧
    (get_final_url (fun _ => .configFail) "http://a/x").outcome = .error () := by
  exact ⟨rfl, rfl, by decide, rfl⟩

/-- C5, amended: on every exit path of the navigation phase — normal return,
navigation error, or timeout, i.e. whenever the session starts and
`set_page_load_timeout` succeeds — the started session is torn down, a
navigation error yields the empty string instead of raising, and a
successful navigation yields the settled URL; but on the exit path where
`set_page_load_timeout` raises, the started session leaks (started without
being quit) and the exception propagates. -/
theorem claim_C5_amended (browser : String → BrowserRun) (url : String) :
    (∀ r : NavResult, browser url = .nav r →
      (get_final_url browser url).sessionsStarted = 1 ∧
      (get_final_url browser url).sessionsQuit = 1) ∧
    (browser url = .nav .err → (get_final_url browser url).outcome = .ok "") ∧
    (∀ u, browser url = .nav (.ok u) → (get_final_url browser url).outcome = .ok u) ∧
    (browser url = .configFail →
      (get_final_url browser url).sessionsStarted = 1 ∧
      (get_final_url browser url).sessionsQuit = 0 ∧
      (get_final_url browser url).outcome = .error ()) ∧
    (browser url = .startFail →
      (get_final_url browser url).sessionsStarted = 0 ∧
      (get_final_url browser url).sessionsQuit = 0) := by
  cases hb : browser url with
  | startFail => simp [get_final_url, hb]
  | configFail => simp [get_final_url, hb]
  | nav r => cases r <;> simp [get_final_url, hb]

/-- Witness for C5 (amended): a navigation error yields the empty string
with the one started session quit. -/
theorem claim_C5_witness :
    (get_final_url (fun _ => .nav .err) "http://a/x").outcome = .ok "" :=
  (claim_C5_amended (fun _ => .nav .err) "http://a/x").2.1 rfl

/-! ### Lemmas and claim for the orchestrator loop (C6) -/

theorem url_to_filename_isSome_of_valid (r : String) (h : is_url_valid r = true) :
    ∃ fn, url_to_filename r = some fn := by
  unfold is_url_valid at h
  cases hp : pyUrlparse r.data with
  | none => rw [hp] at h; exact absurd h (by simp)
  | some u =>
    unfold url_to_filename pyLowerL
    rw [pyUrlparse_map, hp]
    exact ⟨_, rfl⟩

theorem download_pdf_total (http : String → HttpResult) (output_dir : String)
    (fs : List String) (r : String) (h : is_url_valid r = true) :
    ∃ out, download_pdf http r output_dir fs = some out := by
  obtain ⟨fn, hfn⟩ := url_to_filename_isSome_of_valid r h
  unfold download_pdf
  rw [hfn]
  by_cases hm : (output_dir ++ "/" ++ fn) ∈ fs
  · exact ⟨⟨fs, false, false, true⟩, by simp [hm]⟩
  · cases http r with
    | netErr => exact ⟨⟨fs, false, true, false⟩, by simp [hm]⟩
    | resp ok ct se =>
      cases ok with
      | false => exact ⟨⟨fs, false, true, false⟩, by simp [hm]⟩
      | true =>
        by_cases hct : acceptableContentType ct = true
        · exact ⟨⟨(output_dir ++ "/" ++ fn) :: fs, !se, true, false⟩,
            by simp [hm, hct]⟩
        · exact ⟨⟨fs, false, true, false⟩,
            by simp [hm, eq_false_of_ne_true hct]⟩

theorem processOne_ok (browser : String → BrowserRun) (http : String → HttpResult)
    (output_dir : String) (fs : List String) (link : String)
    (hb : browser link ≠ .startFail ∧ browser link ≠ .configFail) :
    ∃ fs2, processOne browser http output_dir fs link = .ok fs2 := by
  unfold processOne
  cases hbr : browser link with
  | startFail => exact absurd hbr hb.1
  | configFail => exact absurd hbr hb.2
  | nav r =>
    have hres : ∀ u, r = .ok u →
        (get_final_url browser link).outcome = .ok u := by
      intro u hu
      unfold get_final_url
      rw [hbr, hu]
    have hres2 : r = .err → (get_final_url browser link).outcome = .ok "" := by
      intro hu
      unfold get_final_url
      rw [hbr, hu]
    cases r with
    | ok u =>
      rw [hres u rfl]
      dsimp only
      by_cases hv : is_url_valid u = true
      · obtain ⟨out, hout⟩ := download_pdf_total http output_dir fs u hv
        rw [if_pos hv, hout]
        exact ⟨out.files, rfl⟩
      · rw [if_neg hv]
        exact ⟨fs, rfl⟩
    | err =>
      rw [hres2 rfl]
      dsimp only
      by_cases hv : is_url_valid "" = true
      · obtain ⟨out, hout⟩ := download_pdf_total http output_dir fs "" hv
        rw [if_pos hv, hout]
        exact ⟨out.files, rfl⟩
      · rw [if_neg hv]
        exact ⟨fs, rfl⟩

/-- C6: orchestrator robustness.  Phase A fetches every seed URL (one bad
page contributes an empty string, never aborting the phase), and Phase C
processes the whole candidate-link list whenever neither pre-navigation
browser-engine call (`webdriver.Chrome`, `set_page_load_timeout`) fails for
any link: navigation errors, invalid resolved URLs, download errors and
content-type rejections are all absorbed, so only a pre-navigation failure
of the browser engine itself can abort the loop. -/
theorem claim_C6 :
    (∀ (http_text : String → Option String) (urls : List String),
      (phaseA http_text urls).length = urls.length) ∧
    (∀ (browser : String → BrowserRun) (http : String → HttpResult)
      (output_dir : String) (fs : List String) (links : List String),
      (∀ l ∈ links, browser l ≠ .startFail ∧ browser l ≠ .configFail) →
      (phaseC browser http output_dir fs links).isOk = true) := by
  constructor
  · intro http_text urls
    unfold phaseA
    exact List.length_map ..
  · intro browser http output_dir fs links
    induction links generalizing fs with
    | nil => intro _; rfl
    | cons l rest ih =>
      intro hb
      obtain ⟨fs2, h2⟩ :=
        processOne_ok browser http output_dir fs l (hb l (List.mem_cons_self _ _))
      unfold phaseC
      rw [h2]
      exact ih fs2 (fun x hx => hb x (List.mem_cons_of_mem _ hx))

/-- Witness for C6: a two-link run whose navigations error, resolve to an
invalid URL, and whose downloads would fail, still completes. -/
theorem claim_C6_witness :
    (phaseC (fun _ => .nav .err) (fun _ => .netErr) "PDFs" []
      ["http://a/1", "http://a/2"]).isOk = true :=
  claim_C6.2 (fun _ => .nav .err) (fun _ => .netErr) "PDFs" []
    ["http://a/1", "http://a/2"] (fun l _ => by exact ⟨by simp, by simp⟩)

/-! ### Claim C8: URL validator -/

/-- C8: `is_url_valid` is total (it returns a boolean for every string, the
parse error being caught) and returns `true` exactly when the string parses
with both a nonempty scheme and a nonempty netloc; the spec's three examples
evaluate as stated. -/
theorem claim_C8 :
    (∀ s : String, is_url_valid s = true ↔
      ∃ u, pyUrlparse s.data = some u ∧ u.scheme ≠ [] ∧ u.netloc ≠ []) ∧
    is_url_valid "https://example.com/x" = true ∧
    is_url_valid "not a url" = false ∧
    is_url_valid "" = false := by
  refine ⟨?_, by rfl, by rfl, by rfl⟩
  intro s
  unfold is_url_valid
  cases hp : pyUrlparse s.data with
  | none => simp
  | some u => simp [List.isEmpty_iff]

/-- Witness for C8, instantiating the characterization at
`https://example.com/x`. -/
theorem claim_C8_witness :
    is_url_valid "https://example.com/x" = true :=
  (claim_C8.1 "https://example.com/x").mpr
    ⟨⟨"https".data, "example.com".data, "/x".data⟩, by rfl, by simp, by simp⟩

/-! ### Lemmas and claims for the link extractor (C2) -/

theorem rdGo_sublist (seen : List String) (l : List String) :
    (rdGo seen l).Sublist l := by
  induction l generalizing seen with
  | nil => simp [rdGo]
  | cons x xs ih =>
    unfold rdGo
    by_cases hm : x ∈ seen
    · simp only [hm, if_true]
      exact (ih seen).cons x
    · simp only [hm, if_false]
      exact (ih (x :: seen)).cons₂ x

theorem mem_rdGo (l : List String) (seen : List String) (x : String) :
    x ∈ rdGo seen l ↔ (x ∈ l ∧ x ∉ seen) := by
  induction l generalizing seen with
  | nil => simp [rdGo]
  | cons y ys ih =>
    unfold rdGo
    by_cases hm : y ∈ seen
    · simp only [hm, if_true, ih, List.mem_cons]
      constructor
      · rintro ⟨h1, h2⟩
        exact ⟨Or.inr h1, h2⟩
      · rintro ⟨h1 | h1, h2⟩
        · exact absurd (h1 ▸ hm) h2
        · exact ⟨h1, h2⟩
    · simp only [hm, if_false, List.mem_cons, ih, List.mem_cons]
      by_cases hxy : x = y
      · subst hxy
        simp [hm]
      · simp [hxy]

theorem rdGo_nodup (seen : List String) (l : List String) :
    (rdGo seen l).Nodup := by
  induction l generalizing seen with
  | nil => simp [rdGo]
  | cons y ys ih =>
    unfold rdGo
    by_cases hm : y ∈ seen
    · simp only [hm, if_true]
      exact ih seen
    · simp only [hm, if_false, List.nodup_cons]
      refine ⟨fun hy => ?_, ih (y :: seen)⟩
      exact ((mem_rdGo ys (y :: seen) y).mp hy).2 (List.mem_cons_self _ _)

/-- C2, counterexample: `extract_pdf_urls` itself performs NO deduplication.
On an HTML string containing the same matching link three times it returns
the link three times, not once. -/
theorem claim_C2_counterexample :
    extract_pdf_urls
        "<a href='https://churchdwight.com/pdf/?productID=40002569'> <a href='https://churchdwight.com/pdf/?productID=40002569'> <a href='https://churchdwight.com/pdf/?productID=40002569'>"
      = ["https://churchdwight.com/pdf/?productID=40002569",
         "https://churchdwight.com/pdf/?productID=40002569",
         "https://churchdwight.com/pdf/?productID=40002569"] ∧
    ¬ extract_pdf_urls
        "<a href='https://churchdwight.com/pdf/?productID=40002569'> <a href='https://churchdwight.com/pdf/?productID=40002569'> <a href='https://churchdwight.com/pdf/?productID=40002569'>"
      = ["https://churchdwight.com/pdf/?productID=40002569"] := by
  refine ⟨rfl, fun hc => ?_⟩
  rw [show extract_pdf_urls
        "<a href='https://churchdwight.com/pdf/?productID=40002569'> <a href='https://churchdwight.com/pdf/?productID=40002569'> <a href='https://churchdwight.com/pdf/?productID=40002569'>"
      = ["https://churchdwight.com/pdf/?productID=40002569",
         "https://churchdwight.com/pdf/?productID=40002569",
         "https://churchdwight.com/pdf/?productID=40002569"] from rfl] at hc
  exact absurd hc (by decide)

/-- C2, amended: `extract_pdf_urls` collects every match of the PDF-link
pattern in match order, duplicates included; deduplication preserving
first-seen order is performed afterwards by `remove_duplicates` (as the
orchestrator does), so the composition applied to HTML containing the same
matching link three times returns it exactly once, in first-seen position.
In general `remove_duplicates` returns a duplicate-free, order-preserving
sublist with exactly the members of its input. -/
theorem claim_C2_amended :
    remove_duplicates (extract_pdf_urls
        "<a href='https://churchdwight.com/pdf/?productID=40002569'> <a href='https://churchdwight.com/pdf/?productID=40002569'> <a href='https://churchdwight.com/pdf/?productID=40002569'>")
      = ["https://churchdwight.com/pdf/?productID=40002569"] ∧
    (∀ l : List String, (remove_duplicates l).Sublist l) ∧
    (∀ l : List String, (remove_duplicates l).Nodup) ∧
    (∀ (l : List String) (x : String), x ∈ remove_duplicates l ↔ x ∈ l) := by
  refine ⟨by rfl, fun l => rdGo_sublist [] l, fun l => rdGo_nodup [] l, fun l x => ?_⟩
  rw [remove_duplicates, mem_rdGo]
  simp

/-- Witness for C2 (amended), instantiating the membership characterization
at a concrete duplicate-bearing list. -/
theorem claim_C2_witness :
    "a" ∈ remove_duplicates ["a", "b", "a"] ↔ "a" ∈ ["a", "b", "a"] :=
  claim_C2_amended.2.2.2 ["a", "b", "a"] "a"

end Scrape

/-! ### Model fidelity checks

Concrete evaluations of the embedded functions, each matching the output
observed from the reference CPython implementation on the same input. -/
example :
    Scrape.download_pdf (fun _ => .resp true "application/pdf" false) "https://a.com/x/pdf/?productID=1" "PDFs" []
      = some ⟨["PDFs/.pdf"], true, true, false⟩ := by rfl
example :
    Scrape.download_pdf (fun _ => .resp true "application/pdf" false) "https://a.com/y/pdf/?productID=234" "PDFs" ["PDFs/.pdf"]
      = some ⟨["PDFs/.pdf"], false, false, true⟩ := by rfl
example : Scrape.acceptableContentType "image/png" = false := by rfl
example : Scrape.acceptableContentType "application/pdf; charset=x" = true := by rfl
example : Scrape.acceptableContentType "text/html; charset=utf-8" = true := by rfl
example : Scrape.extract_pdf_urls "<a href='https://churchdwight.com/pdf/?productID=40002569'> <a href='https://churchdwight.com/pdf/?productID=40002569'> <a href='https://churchdwight.com/pdf/?productID=40002569'>" = ["https://churchdwight.com/pdf/?productID=40002569", "https://churchdwight.com/pdf/?productID=40002569", "https://churchdwight.com/pdf/?productID=40002569"] := by rfl
example : Scrape.extract_pdf_urls "xxhttps://a.com/pdf/?productID=1x/pdf/?productID=22end" = ["https://a.com/pdf/?productID=1x/pdf/?productID=22"] := by rfl
example : Scrape.extract_pdf_urls "https://a.com/pdf/?productID=12https://b.com/pdf/?productID=3" = ["https://a.com/pdf/?productID=12https://b.com/pdf/?productID=3"] := by rfl
example : Scrape.extract_pdf_urls "no links here" = [] := by rfl
example : Scrape.extract_pdf_urls "http://x.org/a/pdf/?productID=7 tail" = ["http://x.org/a/pdf/?productID=7"] := by rfl
example : Scrape.url_to_filename "https://example.com/" = some ".pdf" := by rfl
example : Scrape.url_to_filename "http://h/x.aspx" = some "x_aspx.aspx" := by rfl
example : Scrape.url_to_filename "http://[a" = none := by rfl
example : Scrape.url_to_filename "https://churchdwight.com/ingredient-disclosure/antiperspirant-deodorant/pdf/?productID=40002569" = some ".pdf" := by rfl
example : Scrape.is_url_valid "https://example.com/x" = true := by rfl
example : Scrape.is_url_valid "not a url" = false := by rfl
example : Scrape.is_url_valid "" = false := by rfl
example : Scrape.url_to_filename "https://a.com/Email-Diamant-Formule-Rouge.aspx" = some "email_diamant_formule_rouge_aspx.aspx" := by rfl
example : Scrape.url_to_filename "https://a.com/report_pdf.pdf" = some "report_pdf.pdf" := by rfl
example : Scrape.remove_duplicates ["a", "b", "a", "c", "b"] = ["a", "b", "c"] := by rfl
example : Scrape.url_to_filename "http://h/x.aspx;v=1" = some "x_aspx.aspx" := by rfl
example : Scrape.url_to_filename "http://a/f.a%20b" = some "f_a_20b.a%20b" := by rfl
example : Scrape.url_to_filename "http://a/x." = some "x." := by rfl
example : Scrape.url_to_filename "http://a/..a" = some "a.pdf" := by rfl
example : Scrape.url_to_filename "http://a/.pdf" = some "pdf.pdf" := by rfl
example : Scrape.url_to_filename "HTTP://A/B.PDF?q=1#f" = some "b.pdf" := by rfl
example : Scrape.url_to_filename "http://a/weird name.TXT" = some "weird_name_txt.txt" := by rfl
example : Scrape.url_to_filename "https://example.com" = some ".pdf" := by rfl
